import Mathlib

/-!
Verification development for the EoV multiplayer session and shared-world
service.  The definitions below are a shallow embedding of
`src/server/services/MultiplayerService.ts`, the `GameWorldService`
(`src/unnamed/part_008`) and the socket gateway (`src/unnamed/part_007`).

JavaScript `Map` objects are modelled as association lists with the same
`get` / `set` / `delete` behaviour (insertion order, key replacement in
place).  Values produced by `Date.now()` and `Math.random()` (timestamps,
generated ids, join-codes, world seeds) are passed in as explicit
parameters.  TypeScript numbers that are only ever integers are modelled
as `Nat`; quantities that undergo division (respawn delays, prices,
health) are modelled as `ℚ`.  `any`-typed cache blobs that no modelled
operation reads (player `inventory` / `stats`, session `sharedInventory` /
`economyState`) are omitted from the corresponding structures.
-/

namespace EoV

/-! ## Association-list model of a JavaScript Map -/

/-- JS `Map.get`: the value bound to the first (unique) occurrence of the key. -/
def mGet {α β : Type} [DecidableEq α] : List (α × β) → α → Option β
  | [], _ => none
  | (k, v) :: rest, k' => if k = k' then some v else mGet rest k'

/-- JS `Map.set`: replace the binding in place if the key is present, else append. -/
def mSet {α β : Type} [DecidableEq α] : List (α × β) → α → β → List (α × β)
  | [], k, v => [(k, v)]
  | (k0, v0) :: rest, k, v =>
      if k0 = k then (k0, v) :: rest else (k0, v0) :: mSet rest k v

/-- JS `Map.delete`: remove the binding of the key, if present. -/
def mDel {α β : Type} [DecidableEq α] : List (α × β) → α → List (α × β)
  | [], _ => []
  | (k0, v0) :: rest, k =>
      if k0 = k then rest else (k0, v0) :: mDel rest k

/-- Delete a list of keys one after the other (a `forEach` of `Map.delete`). -/
def mDelAll {α β : Type} [DecidableEq α] (m : List (α × β)) (ks : List α) : List (α × β) :=
  ks.foldl mDel m

/-- The keys of an association list. -/
def mKeys {α β : Type} (m : List (α × β)) : List α := m.map Prod.fst

/-! ## MultiplayerService (src/server/services/MultiplayerService.ts) -/

/-- `SessionPlayer` from MultiplayerService.ts (the `any`-typed
`inventory` / `stats` caches are omitted; no modelled operation reads them). -/
structure SessionPlayer where
  id : String
  socketId : String
  name : String
  joinedAt : Nat
  lastSeen : Nat
  position : Option (ℚ × ℚ × ℚ)
  level : Nat
  isHost : Bool
  deriving DecidableEq, Repr

/-- `GameSessionState` from MultiplayerService.ts (`any`-typed
`sharedInventory` / `economyState` omitted, both initialised empty). -/
structure GameSessionState where
  worldTime : Nat
  season : String
  harvestedResources : List String
  defeatedEnemies : List String
  deriving DecidableEq, Repr

/-- `GameSession` from MultiplayerService.ts. -/
structure GameSession where
  id : String
  hostCode : String
  hostId : String
  hostName : String
  players : List SessionPlayer
  maxPlayers : Nat
  isPublic : Bool
  createdAt : Nat
  lastActivity : Nat
  worldSeed : Nat
  gameState : GameSessionState
  deriving DecidableEq, Repr

/-- The three registries owned by `MultiplayerService`:
`sessions`, `playerSessions` (socketId → sessionId) and
`hostCodes` (hostCode → sessionId). -/
structure MultiplayerState where
  sessions : List (String × GameSession)
  playerSessions : List (String × String)
  hostCodes : List (String × String)
  deriving DecidableEq, Repr

def MAX_SESSIONS : Nat := 50

def MAX_PLAYERS_PER_SESSION : Nat := 8

def SESSION_TIMEOUT : Nat := 30 * 60 * 1000

/-- The empty registry built by the `MultiplayerService` constructor. -/
def initialState : MultiplayerState := ⟨[], [], []⟩

/-- `createSession`.  The generated session id, host code, timestamp and
world seed are parameters (`generateSessionId`, `generateHostCode`,
`Date.now()`, `Math.random()`). -/
def createSession (st : MultiplayerState) (hostSocketId hostName : String)
    (sessionId hostCode : String) (now worldSeed : Nat) :
    Option GameSession × MultiplayerState :=
  if MAX_SESSIONS ≤ st.sessions.length then
    (none, st)
  else
    let gameState : GameSessionState :=
      { worldTime := 0, season := "spring",
        harvestedResources := [], defeatedEnemies := [] }
    let hostPlayer : SessionPlayer :=
      { id := "player_" ++ toString now, socketId := hostSocketId,
        name := hostName, joinedAt := now, lastSeen := now,
        position := none, level := 1, isHost := true }
    let session : GameSession :=
      { id := sessionId, hostCode := hostCode, hostId := hostSocketId,
        hostName := hostName, players := [hostPlayer],
        maxPlayers := MAX_PLAYERS_PER_SESSION, isPublic := false,
        createdAt := now, lastActivity := now, worldSeed := worldSeed,
        gameState := gameState }
    (some session,
      { sessions := mSet st.sessions sessionId session,
        playerSessions := mSet st.playerSessions hostSocketId sessionId,
        hostCodes := mSet st.hostCodes hostCode sessionId })

/-- The `{ success, session?, error? }` result shape of `joinSession`. -/
structure JoinOutcome where
  success : Bool
  session : Option GameSession
  error : Option String
  deriving DecidableEq, Repr

/-- `joinSession`.  The generated player id and timestamp are parameters. -/
def joinSession (st : MultiplayerState) (socketId hostCode playerName : String)
    (playerId : String) (now : Nat) : JoinOutcome × MultiplayerState :=
  match mGet st.hostCodes hostCode with
  | none => ({ success := false, session := none, error := some "Invalid session code" }, st)
  | some sessionId =>
    match mGet st.sessions sessionId with
    | none => ({ success := false, session := none, error := some "Session not found" }, st)
    | some session =>
      if session.maxPlayers ≤ session.players.length then
        ({ success := false, session := none, error := some "Session is full" }, st)
      else if (mGet st.playerSessions socketId).isSome then
        ({ success := false, session := none, error := some "Player already in a session" }, st)
      else
        let player : SessionPlayer :=
          { id := playerId, socketId := socketId, name := playerName,
            joinedAt := now, lastSeen := now, position := none,
            level := 1, isHost := false }
        let session' : GameSession :=
          { session with players := session.players ++ [player], lastActivity := now }
        ({ success := true, session := some session', error := none },
          { st with
            sessions := mSet st.sessions sessionId session',
            playerSessions := mSet st.playerSessions socketId sessionId })

/-- `deleteSession`: cascades removal of every player mapping of the
session and of its host-code mapping, then removes the session. -/
def deleteSession (st : MultiplayerState) (sessionId : String) :
    Bool × MultiplayerState :=
  match mGet st.sessions sessionId with
  | none => (false, st)
  | some session =>
    (true,
      { sessions := mDel st.sessions sessionId,
        playerSessions := mDelAll st.playerSessions (session.players.map (·.socketId)),
        hostCodes := mDel st.hostCodes session.hostCode })

/-- `players.findIndex` followed by `players.splice(index, 1)`: returns the
first player with the given socket id together with the list without that
one occurrence. -/
def findRemove (socketId : String) : List SessionPlayer →
    Option (SessionPlayer × List SessionPlayer)
  | [] => none
  | p :: rest =>
    if p.socketId = socketId then some (p, rest)
    else
      match findRemove socketId rest with
      | none => none
      | some (q, rest') => some (q, p :: rest')

/-- `removePlayerFromSession`.  Mirrors the source order: splice the player
and stamp `lastActivity`, delete the socket mapping, then transfer the host
role to `players[0]` or delete the session when the removed player was the
host. -/
def removePlayerFromSession (st : MultiplayerState) (socketId : String)
    (now : Nat) : Bool × MultiplayerState :=
  match mGet st.playerSessions socketId with
  | none => (false, st)
  | some sessionId =>
    match mGet st.sessions sessionId with
    | none => (false, st)
    | some session =>
      match findRemove socketId session.players with
      | none => (false, st)
      | some (removedPlayer, players') =>
        let session1 : GameSession :=
          { session with players := players', lastActivity := now }
        let st1 : MultiplayerState :=
          { st with
            sessions := mSet st.sessions sessionId session1,
            playerSessions := mDel st.playerSessions socketId }
        if removedPlayer.isHost then
          match players' with
          | [] => (true, (deleteSession st1 sessionId).2)
          | newHost :: rest =>
            let session2 : GameSession :=
              { session1 with
                players := { newHost with isHost := true } :: rest,
                hostId := newHost.socketId,
                hostName := newHost.name }
            (true, { st1 with sessions := mSet st1.sessions sessionId session2 })
        else
          (true, st1)

/-- `getPlayerSession`: resolve a socket id to its session, if any. -/
def getPlayerSession (st : MultiplayerState) (socketId : String) :
    Option GameSession :=
  match mGet st.playerSessions socketId with
  | none => none
  | some sessionId => mGet st.sessions sessionId

/-- Registry states reachable through the session-lifecycle operations.
The freshness hypotheses on `create` reflect the source: `generateHostCode`
regenerates on collision, and session ids are specified as unique. -/
inductive Reachable : MultiplayerState → Prop
  | init : Reachable initialState
  | create {st : MultiplayerState} (sock name sid code : String) (now seed : Nat)
      (h : Reachable st) (hsid : mGet st.sessions sid = none)
      (hcode : mGet st.hostCodes code = none) :
      Reachable (createSession st sock name sid code now seed).2
  | join {st : MultiplayerState} (sock code name pid : String) (now : Nat)
      (h : Reachable st) :
      Reachable (joinSession st sock code name pid now).2
  | leave {st : MultiplayerState} (sock : String) (now : Nat)
      (h : Reachable st) :
      Reachable (removePlayerFromSession st sock now).2
  | delete {st : MultiplayerState} (sid : String)
      (h : Reachable st) :
      Reachable (deleteSession st sid).2

/-! ## GameWorldService (src/unnamed/part_008) -/

/-- `WorldResource`. -/
structure WorldResource where
  id : String
  type : String
  position : ℚ × ℚ × ℚ
  remainingUses : Nat
  maxUses : Nat
  respawnTime : ℚ
  lastHarvestedTime : ℚ
  harvestedBy : Option String
  chunkId : String
  isRespawning : Bool
  deriving DecidableEq, Repr

/-- `LootDrop`. -/
structure LootDrop where
  itemId : String
  quantity : Nat
  dropChance : ℚ
  rarity : String
  deriving DecidableEq, Repr

/-- `WorldEnemy`. -/
structure WorldEnemy where
  id : String
  type : String
  level : Nat
  position : ℚ × ℚ × ℚ
  health : ℚ
  maxHealth : ℚ
  isAlive : Bool
  spawnTime : ℚ
  lastActivity : ℚ
  chunkId : String
  aggroTarget : Option String
  lootTable : List LootDrop
  experienceReward : Nat
  deriving DecidableEq, Repr

/-- The season enumeration `'spring' | 'summer' | 'autumn' | 'winter'`. -/
inductive Season where
  | spring
  | summer
  | autumn
  | winter
  deriving DecidableEq, Repr

/-- The weather enumeration `'clear' | 'rain' | 'storm' | 'snow' | 'fog'`. -/
inductive WeatherType where
  | clear
  | rain
  | storm
  | snow
  | fog
  deriving DecidableEq, Repr

/-- `WeatherState`. -/
structure WeatherState where
  type : WeatherType
  intensity : ℚ
  duration : ℚ
  startTime : ℚ
  deriving DecidableEq, Repr

/-- `EconomyState`. -/
structure EconomyState where
  marketPrices : List (String × ℚ)
  resourceDemand : List (String × ℚ)
  tradeVolume : List (String × ℚ)
  inflationRate : ℚ
  lastMarketUpdate : ℚ
  deriving DecidableEq, Repr

/-- The event-type enumeration of `WorldEvent`. -/
inductive WorldEventType where
  | resource_respawn
  | enemy_spawn
  | weather_change
  | market_fluctuation
  | seasonal_change
  deriving DecidableEq, Repr

/-- The `any`-typed `data` payloads actually stored in `WorldEvent.data`
by the source: `{ resourceId }` for respawns, `{ newSeason, previousSeason }`
for seasonal changes, `{ weatherType, intensity }` for weather,
`{ prices }` for market ticks, and `{}` for the initial weather event. -/
inductive WorldEventData where
  | respawn (resourceId : String)
  | seasonal (newSeason previousSeason : Season)
  | weather (weatherType : WeatherType) (intensity : ℚ)
  | market (prices : List (String × ℚ))
  | empty
  deriving DecidableEq, Repr

/-- `WorldEvent`. -/
structure WorldEvent where
  id : String
  type : WorldEventType
  scheduledTime : ℚ
  data : WorldEventData
  processed : Bool
  deriving DecidableEq, Repr

/-- `WorldState` (one per session). -/
structure WorldState where
  sessionId : String
  worldSeed : Nat
  gameTime : Nat
  season : Season
  dayLength : Nat
  loadedChunks : List String
  resources : List (String × WorldResource)
  enemies : List (String × WorldEnemy)
  discoveredLocations : List String
  weatherState : WeatherState
  economyState : EconomyState
  eventQueue : List WorldEvent
  lastUpdate : ℚ
  playerCount : Nat
  deriving DecidableEq, Repr

/-- The `worldStates` registry of `GameWorldService` (sessionId → WorldState). -/
abbrev WorldStates := List (String × WorldState)

def RESOURCE_RESPAWN_MULTIPLIER : ℚ := 3 / 2

/-- The `{ success, item?, message? }` result shape of `harvestResource`. -/
structure HarvestResult where
  success : Bool
  item : Option (String × String × Nat)
  message : Option String
  deriving DecidableEq, Repr

/-- `getResourceItem`: the `{ id, name, quantity }` item yielded by a
resource type, with the identity fallback for unknown types. -/
def getResourceItem (type : String) : String × String × Nat :=
  match type with
  | "wood" => ("wood", "Wood", 1)
  | "stone" => ("stone", "Stone", 1)
  | "iron_ore" => ("iron_ore", "Iron Ore", 1)
  | "healing_herb" => ("healing_herb", "Healing Herb", 1)
  | _ => (type, type, 1)

/-- `getResourceRespawnTime`: base respawn time (ms) per resource type. -/
def getResourceRespawnTime (type : String) : ℚ :=
  match type with
  | "wood" => 30000
  | "stone" => 60000
  | "iron_ore" => 120000
  | "healing_herb" => 45000
  | _ => 60000

/-- The respawn delay computed by `scheduleResourceRespawn`:
`resource.respawnTime / (worldState.playerCount * RESOURCE_RESPAWN_MULTIPLIER)`.
No lower bound is applied. -/
def respawnDelay (respawnTime : ℚ) (playerCount : Nat) : ℚ :=
  respawnTime / (playerCount * RESOURCE_RESPAWN_MULTIPLIER)

/-- `scheduleResourceRespawn`: mark the resource as respawning and push one
`resource_respawn` event on the queue. -/
def scheduleResourceRespawn (w : WorldState) (resourceId : String) (now : ℚ) :
    WorldState :=
  match mGet w.resources resourceId with
  | none => w
  | some resource =>
    let resource1 := { resource with isRespawning := true }
    let respawnEvent : WorldEvent :=
      { id := "respawn_" ++ resourceId,
        type := .resource_respawn,
        scheduledTime := now + respawnDelay resource.respawnTime w.playerCount,
        data := .respawn resourceId,
        processed := false }
    { w with
      resources := mSet w.resources resourceId resource1,
      eventQueue := w.eventQueue ++ [respawnEvent] }

/-- `harvestResource`.  Check order as in the source: world present,
resource present, `remainingUses <= 0` (depleted), `isRespawning`; then
decrement, stamp, and schedule a respawn when the count reaches zero. -/
def harvestResource (ws : WorldStates) (sessionId resourceId : String)
    (playerId : Option String) (now : ℚ) : HarvestResult × WorldStates :=
  match mGet ws sessionId with
  | none => ({ success := false, item := none, message := some "World state not found" }, ws)
  | some w =>
    match mGet w.resources resourceId with
    | none => ({ success := false, item := none, message := some "Resource not found" }, ws)
    | some resource =>
      if resource.remainingUses ≤ 0 then
        ({ success := false, item := none, message := some "Resource is depleted" }, ws)
      else if resource.isRespawning then
        ({ success := false, item := none, message := some "Resource is respawning" }, ws)
      else
        let resource1 :=
          { resource with
            remainingUses := resource.remainingUses - 1,
            lastHarvestedTime := now,
            harvestedBy := playerId }
        let harvestedItem := getResourceItem resource.type
        let w1 := { w with resources := mSet w.resources resourceId resource1 }
        let w2 :=
          if resource1.remainingUses ≤ 0 then scheduleResourceRespawn w1 resourceId now
          else w1
        ({ success := true, item := some harvestedItem, message := none },
          mSet ws sessionId w2)

/-- `removeEnemy`: no `isAlive` guard — marks the enemy dead and returns
`true` whenever the world and the enemy exist.  The `setTimeout`-driven
physical deletion 30 s later is real-time behaviour outside this embedding. -/
def removeEnemy (ws : WorldStates) (sessionId enemyId : String) :
    Bool × WorldStates :=
  match mGet ws sessionId with
  | none => (false, ws)
  | some w =>
    match mGet w.enemies enemyId with
    | none => (false, ws)
    | some enemy =>
      let enemy1 := { enemy with isAlive := false, health := 0 }
      (true, mSet ws sessionId { w with enemies := mSet w.enemies enemyId enemy1 })

/-- `seasons[seasonIndex]` for `seasonIndex = floor(daysPassed / 30) % 4`
over `['spring', 'summer', 'autumn', 'winter']`. -/
def seasonOfIndex (i : Nat) : Season :=
  match i % 4 with
  | 0 => .spring
  | 1 => .summer
  | 2 => .autumn
  | _ => .winter

/-- `changeSeason`: the source assigns `worldState.season = newSeason`
first and only then builds the event payload from `worldState.season`, so
the stored `previousSeason` is the already-overwritten value.  The
generated event id (`season_` + `Date.now()`) is a parameter. -/
def changeSeason (w : WorldState) (newSeason : Season) (now : ℚ)
    (eventId : String) : WorldState :=
  let w1 := { w with season := newSeason }
  let seasonalEvent : WorldEvent :=
    { id := eventId,
      type := .seasonal_change,
      scheduledTime := now,
      data := .seasonal newSeason w1.season,
      processed := false }
  { w1 with eventQueue := w1.eventQueue ++ [seasonalEvent] }

/-- `updateGameTime`: advance the clock, recompute the season from whole
days (`30` days per season) and fire `changeSeason` when it differs. -/
def updateGameTime (ws : WorldStates) (sessionId : String) (deltaTime : Nat)
    (now : ℚ) (eventId : String) : WorldStates :=
  match mGet ws sessionId with
  | none => ws
  | some w =>
    let gameTime' := w.gameTime + deltaTime
    let daysPassed := gameTime' / w.dayLength
    let newSeason := seasonOfIndex (daysPassed / 30)
    let w1 := { w with gameTime := gameTime' }
    if newSeason ≠ w1.season then
      mSet ws sessionId (changeSeason w1 newSeason now eventId)
    else
      mSet ws sessionId w1

/-- `calculateSeasonalRespawnTime`: base time scaled by the seasonal
multiplier table. -/
def calculateSeasonalRespawnTime (type : String) (season : Season) : ℚ :=
  let baseTime := getResourceRespawnTime type
  let multiplier : ℚ :=
    match season, type with
    | .spring, "wood" => 8 / 10
    | .spring, "healing_herb" => 7 / 10
    | .summer, "healing_herb" => 6 / 10
    | .summer, "stone" => 11 / 10
    | .autumn, "wood" => 9 / 10
    | .autumn, "iron_ore" => 9 / 10
    | .winter, "wood" => 12 / 10
    | .winter, "healing_herb" => 15 / 10
    | _, _ => 1
  baseTime * multiplier

/-- `processResourceRespawn`: restore the resource to full uses and clear
the respawn flag. -/
def processResourceRespawn (w : WorldState) (resourceId : String) : WorldState :=
  match mGet w.resources resourceId with
  | none => w
  | some resource =>
    { w with
      resources := mSet w.resources resourceId
        { resource with
          remainingUses := resource.maxUses,
          isRespawning := false,
          lastHarvestedTime := 0,
          harvestedBy := none } }

/-- `processSeasonalChange`: recompute every resource's respawn time for
the current season (`spawnSeasonalEnemies` only logs). -/
def processSeasonalChange (w : WorldState) : WorldState :=
  { w with
    resources := w.resources.map
      (fun kr => (kr.1, { kr.2 with
        respawnTime := calculateSeasonalRespawnTime kr.2.type w.season })) }

/-- `processWorldEvent`: dispatch one due event to its handler.  The
`enemy_spawn` handler (`processEnemySpawn`) is referenced by the source but
its definition is not among the provided files; no claim depends on it and
no modelled operation enqueues an `enemy_spawn` event, so it is a no-op
here.  Weather and market events are handled elsewhere (`updateWeather`,
`updateEconomy`) and their event branches do nothing. -/
def processWorldEvent (w : WorldState) (event : WorldEvent) : WorldState :=
  match event.type, event.data with
  | .resource_respawn, .respawn resourceId => processResourceRespawn w resourceId
  | .seasonal_change, _ => processSeasonalChange w
  | _, _ => w

/-- The in-order `eventQueue.filter` pass of `processWorldEvents`: keep
events that are already processed or still in the future, apply and collect
the due ones. -/
def processEventsPass (w : WorldState) (now : ℚ) :
    List WorldEvent → WorldState × List WorldEvent × List WorldEvent
  | [] => (w, [], [])
  | event :: rest =>
    if event.processed ∨ now < event.scheduledTime then
      let out := processEventsPass w now rest
      (out.1, event :: out.2.1, out.2.2)
    else
      let w1 := processWorldEvent w event
      let event1 := { event with processed := true }
      let out := processEventsPass w1 now rest
      (out.1, out.2.1, event1 :: out.2.2)

/-- `processWorldEvents`: process every due event, leave the rest queued,
and return the processed events. -/
def processWorldEvents (ws : WorldStates) (sessionId : String) (now : ℚ) :
    List WorldEvent × WorldStates :=
  match mGet ws sessionId with
  | none => ([], ws)
  | some w =>
    let out := processEventsPass w now w.eventQueue
    (out.2.2, mSet ws sessionId { out.1 with eventQueue := out.2.1 })

/-! ## Socket gateway (src/unnamed/part_007) -/

/-- The `enemy_defeated` payload broadcast to the session room: the
client-supplied `experience` and `loot` fields are echoed through. -/
structure EnemyDefeatedBroadcast where
  enemyId : String
  defeatedBy : String
  experience : Nat
  loot : List String
  timestamp : ℚ
  deriving DecidableEq, Repr

/-- The `socket.on("enemy_defeated")` handler: whenever the sender resolves
to a session it calls `removeEnemy` and unconditionally broadcasts an
`enemy_defeated` event to the room. -/
def handleEnemyDefeated (st : MultiplayerState) (ws : WorldStates)
    (socketId enemyId : String) (experience : Nat) (loot : List String)
    (now : ℚ) : Option EnemyDefeatedBroadcast × WorldStates :=
  match getPlayerSession st socketId with
  | none => (none, ws)
  | some session =>
    let out := removeEnemy ws session.id enemyId
    (some { enemyId := enemyId, defeatedBy := socketId,
            experience := experience, loot := loot, timestamp := now },
      out.2)

/-- Number of players flagged as host in a player list. -/
def hostCount (ps : List SessionPlayer) : Nat :=
  (ps.filter (fun p => p.isHost)).length

/-! ## Concrete states used to evaluate the theorems

A small registry (host Aria, joiner Bram) and a world holding a 3-use wood
resource, a 1-use healing herb and an already-dead enemy, mirroring the
spec's walkthrough scenario. -/

def cStA : MultiplayerState :=
  (createSession initialState "sockA" "Aria" "sid1" "ABC123" 0 7).2

def cJoinB : JoinOutcome × MultiplayerState :=
  joinSession cStA "sockB" "ABC123" "Bram" "pB" 1

def cStB : MultiplayerState := cJoinB.2

def cAriaPlayer : SessionPlayer :=
  { id := "player_0", socketId := "sockA", name := "Aria", joinedAt := 0,
    lastSeen := 0, position := none, level := 1, isHost := true }

def cBramPlayer : SessionPlayer :=
  { id := "pB", socketId := "sockB", name := "Bram", joinedAt := 1,
    lastSeen := 1, position := none, level := 1, isHost := false }

def cSessAB : GameSession :=
  { id := "sid1", hostCode := "ABC123", hostId := "sockA", hostName := "Aria",
    players := [cAriaPlayer, cBramPlayer], maxPlayers := 8, isPublic := false,
    createdAt := 0, lastActivity := 1, worldSeed := 7,
    gameState := { worldTime := 0, season := "spring",
                   harvestedResources := [], defeatedEnemies := [] } }

def cR1 : WorldResource :=
  { id := "R1", type := "wood", position := (0, 0, 0), remainingUses := 3,
    maxUses := 3, respawnTime := 30000, lastHarvestedTime := 0,
    harvestedBy := none, chunkId := "0,0", isRespawning := false }

def cRone : WorldResource :=
  { id := "R2", type := "healing_herb", position := (0, 0, 0),
    remainingUses := 1, maxUses := 1, respawnTime := 45000,
    lastHarvestedTime := 0, harvestedBy := none, chunkId := "0,0",
    isRespawning := false }

def cEnemyDead : WorldEnemy :=
  { id := "e1", type := "goblin", level := 1, position := (0, 0, 0),
    health := 0, maxHealth := 30, isAlive := false, spawnTime := 0,
    lastActivity := 0, chunkId := "0,0", aggroTarget := none,
    lootTable := [], experienceReward := 25 }

def cWorldBase : WorldState :=
  { sessionId := "sid1", worldSeed := 7, gameTime := 0, season := .spring,
    dayLength := 1200000, loadedChunks := [],
    resources := [("R1", cR1), ("R2", cRone)],
    enemies := [("e1", cEnemyDead)], discoveredLocations := [],
    weatherState := { type := .clear, intensity := 0, duration := 600000,
                      startTime := 0 },
    economyState := { marketPrices := [], resourceDemand := [],
                      tradeVolume := [], inflationRate := 1,
                      lastMarketUpdate := 0 },
    eventQueue := [], lastUpdate := 0, playerCount := 2 }

def cWs : WorldStates := [("sid1", cWorldBase)]

def cH1 : HarvestResult × WorldStates :=
  harvestResource cWs "sid1" "R1" (some "player_0") 10

def cH2 : HarvestResult × WorldStates :=
  harvestResource cH1.2 "sid1" "R1" (some "player_0") 11

def cH3 : HarvestResult × WorldStates :=
  harvestResource cH2.2 "sid1" "R1" (some "player_0") 12

def cH4 : HarvestResult × WorldStates :=
  harvestResource cH3.2 "sid1" "R1" (some "pB") 13

def cD1 : Option EnemyDefeatedBroadcast × WorldStates :=
  handleEnemyDefeated cStB cWs "sockA" "e1" 100 ["gold"] 5

def cD2 : Option EnemyDefeatedBroadcast × WorldStates :=
  handleEnemyDefeated cStB cD1.2 "sockA" "e1" 100 ["gold"] 6

/-- Look up a resource through the service registry (reading helper). -/
def resourceState (ws : WorldStates) (sid rid : String) : Option WorldResource :=
  match mGet ws sid with
  | none => none
  | some w => mGet w.resources rid

/-- Look up an enemy through the service registry (reading helper). -/
def enemyState (ws : WorldStates) (sid eid : String) : Option WorldEnemy :=
  match mGet ws sid with
  | none => none
  | some w => mGet w.enemies eid

/-- The session record of `cStA` (host only). -/
def cSessA : GameSession :=
  { id := "sid1", hostCode := "ABC123", hostId := "sockA", hostName := "Aria",
    players := [cAriaPlayer], maxPlayers := 8, isPublic := false,
    createdAt := 0, lastActivity := 0, worldSeed := 7,
    gameState := { worldTime := 0, season := "spring",
                   harvestedResources := [], defeatedEnemies := [] } }

/-- Seven further joiners fill the session up to its 8-player cap. -/
def cStJ (st : MultiplayerState) (i : Nat) : MultiplayerState :=
  (joinSession st ("s" ++ toString i) "ABC123" ("N" ++ toString i)
    ("p" ++ toString i) i).2

def cStFull : MultiplayerState :=
  cStJ (cStJ (cStJ (cStJ (cStJ (cStJ (cStJ cStA 2) 3) 4) 5) 6) 7) 8

def cJoiner (i : Nat) : SessionPlayer :=
  { id := "p" ++ toString i, socketId := "s" ++ toString i,
    name := "N" ++ toString i, joinedAt := i, lastSeen := i,
    position := none, level := 1, isHost := false }

/-- The full 8-player session record of `cStFull`. -/
def cSessFull : GameSession :=
  { cSessA with
    players := [cAriaPlayer, cJoiner 2, cJoiner 3, cJoiner 4, cJoiner 5,
                cJoiner 6, cJoiner 7, cJoiner 8],
    lastActivity := 8 }

/-! ## Lemmas about the association-list map operations -/

theorem mGet_eq_none_iff {α β : Type} [DecidableEq α] {m : List (α × β)} {k : α} :
    mGet m k = none ↔ k ∉ mKeys m := by
  induction m with
  | nil => simp [mGet, mKeys]
  | cons kv rest ih =>
    obtain ⟨k0, v0⟩ := kv
    by_cases h : k0 = k
    · subst h
      simp [mGet, mKeys]
    · simp [mGet, mKeys, h, ih, Ne.symm h]

theorem mGet_some_mem {α β : Type} [DecidableEq α] {m : List (α × β)} {k : α} {v : β}
    (h : mGet m k = some v) : (k, v) ∈ m := by
  induction m with
  | nil => simp [mGet] at h
  | cons kv rest ih =>
    obtain ⟨k0, v0⟩ := kv
    by_cases hk : k0 = k
    · subst hk
      simp [mGet] at h
      simp [h]
    · simp [mGet, hk] at h
      exact List.mem_cons_of_mem _ (ih h)

theorem mem_mKeys {α β : Type} {m : List (α × β)} {k : α} :
    k ∈ mKeys m ↔ ∃ v, (k, v) ∈ m := by
  constructor
  · intro h
    rcases List.mem_map.mp h with ⟨⟨a, b⟩, hm, hfst⟩
    have : a = k := hfst
    subst this
    exact ⟨b, hm⟩
  · rintro ⟨v, hv⟩
    exact List.mem_map.mpr ⟨(k, v), hv, rfl⟩

theorem mGet_of_mem_nodup {α β : Type} [DecidableEq α] {m : List (α × β)} {k : α} {v : β}
    (hnd : (mKeys m).Nodup) (h : (k, v) ∈ m) : mGet m k = some v := by
  induction m with
  | nil => simp at h
  | cons kv rest ih =>
    obtain ⟨k0, v0⟩ := kv
    rw [show mKeys ((k0, v0) :: rest) = k0 :: mKeys rest from rfl,
      List.nodup_cons] at hnd
    rcases List.mem_cons.mp h with h1 | h2
    · injection h1 with e1 e2
      subst e1
      subst e2
      simp [mGet]
    · have hk : k0 ≠ k := by
        intro he
        subst he
        exact hnd.1 (mem_mKeys.mpr ⟨v, h2⟩)
      simp [mGet, hk]
      exact ih hnd.2 h2

theorem mGet_mSet_self {α β : Type} [DecidableEq α] (m : List (α × β)) (k : α) (v : β) :
    mGet (mSet m k v) k = some v := by
  induction m with
  | nil => simp [mGet, mSet]
  | cons kv rest ih =>
    obtain ⟨k0, v0⟩ := kv
    by_cases h : k0 = k
    · subst h
      simp [mGet, mSet]
    · simp [mGet, mSet, h, ih]

theorem mGet_mSet_ne {α β : Type} [DecidableEq α] (m : List (α × β)) {k k' : α} (v : β)
    (h : k ≠ k') : mGet (mSet m k v) k' = mGet m k' := by
  induction m with
  | nil => simp [mGet, mSet, h]
  | cons kv rest ih =>
    obtain ⟨k0, v0⟩ := kv
    by_cases h0 : k0 = k
    · subst h0
      simp [mGet, mSet, h]
    · by_cases h1 : k0 = k'
      · subst h1
        simp [mGet, mSet, h0]
      · simp [mGet, mSet, h0, h1, ih]

theorem mem_mSet {α β : Type} [DecidableEq α] {m : List (α × β)} {k k' : α} {v v' : β}
    (h : (k', v') ∈ mSet m k v) : (k' = k ∧ v' = v) ∨ (k', v') ∈ m := by
  induction m with
  | nil =>
    simp [mSet] at h
    exact Or.inl ⟨h.1, h.2⟩
  | cons kv rest ih =>
    obtain ⟨k0, v0⟩ := kv
    by_cases h0 : k0 = k
    · subst h0
      simp [mSet] at h
      rcases h with h1 | h2
      · exact Or.inl ⟨h1.1, h1.2⟩
      · exact Or.inr (List.mem_cons_of_mem _ h2)
    · simp [mSet, h0] at h
      rcases h with h1 | h2
      · exact Or.inr (by simp [h1])
      · rcases ih h2 with h3 | h4
        · exact Or.inl h3
        · exact Or.inr (List.mem_cons_of_mem _ h4)

theorem mem_mKeys_mSet {α β : Type} [DecidableEq α] {m : List (α × β)} {k k' : α} {v : β}
    (h : k' ∈ mKeys (mSet m k v)) : k' = k ∨ k' ∈ mKeys m := by
  rcases mem_mKeys.mp h with ⟨v', hv'⟩
  rcases mem_mSet hv' with h1 | h2
  · exact Or.inl h1.1
  · exact Or.inr (mem_mKeys.mpr ⟨v', h2⟩)

theorem mKeys_nodup_mSet {α β : Type} [DecidableEq α] {m : List (α × β)} (k : α) (v : β)
    (hnd : (mKeys m).Nodup) : (mKeys (mSet m k v)).Nodup := by
  induction m with
  | nil => simp [mSet, mKeys]
  | cons kv rest ih =>
    obtain ⟨k0, v0⟩ := kv
    rw [show mKeys ((k0, v0) :: rest) = k0 :: mKeys rest from rfl,
      List.nodup_cons] at hnd
    by_cases h0 : k0 = k
    · subst h0
      rw [show mSet ((k0, v0) :: rest) k0 v = (k0, v) :: rest by simp [mSet]]
      rw [show mKeys ((k0, v) :: rest) = k0 :: mKeys rest from rfl, List.nodup_cons]
      exact ⟨hnd.1, hnd.2⟩
    · rw [show mSet ((k0, v0) :: rest) k v = (k0, v0) :: mSet rest k v by simp [mSet, h0]]
      rw [show mKeys ((k0, v0) :: mSet rest k v) = k0 :: mKeys (mSet rest k v) from rfl,
        List.nodup_cons]
      refine ⟨?_, ih hnd.2⟩
      intro hk0
      rcases mem_mKeys_mSet hk0 with h1 | h2
      · exact h0 h1
      · exact hnd.1 h2

theorem mDel_sublist {α β : Type} [DecidableEq α] (m : List (α × β)) (k : α) :
    List.Sublist (mDel m k) m := by
  induction m with
  | nil => simp [mDel]
  | cons kv rest ih =>
    obtain ⟨k0, v0⟩ := kv
    by_cases h : k0 = k
    · simp only [mDel, if_pos h]
      exact List.Sublist.cons _ (List.Sublist.refl rest)
    · simp only [mDel, if_neg h]
      exact List.Sublist.cons₂ (k0, v0) ih

theorem mem_mDel {α β : Type} [DecidableEq α] {m : List (α × β)} {k k' : α} {v' : β}
    (h : (k', v') ∈ mDel m k) : (k', v') ∈ m :=
  (mDel_sublist m k).subset h

theorem mKeys_nodup_mDel {α β : Type} [DecidableEq α] {m : List (α × β)} (k : α)
    (hnd : (mKeys m).Nodup) : (mKeys (mDel m k)).Nodup :=
  List.Nodup.sublist ((mDel_sublist m k).map Prod.fst) hnd

theorem mGet_mDel_self {α β : Type} [DecidableEq α] {m : List (α × β)} (k : α)
    (hnd : (mKeys m).Nodup) : mGet (mDel m k) k = none := by
  induction m with
  | nil => simp [mDel, mGet]
  | cons kv rest ih =>
    obtain ⟨k0, v0⟩ := kv
    simp [mKeys] at hnd
    by_cases h : k0 = k
    · subst h
      simp [mDel]
      exact mGet_eq_none_iff.mpr (by simpa [mKeys] using hnd.1)
    · simp [mDel, mGet, h]
      exact ih hnd.2

theorem mGet_mDel_ne {α β : Type} [DecidableEq α] (m : List (α × β)) {k k' : α}
    (h : k ≠ k') : mGet (mDel m k) k' = mGet m k' := by
  induction m with
  | nil => simp [mDel]
  | cons kv rest ih =>
    obtain ⟨k0, v0⟩ := kv
    by_cases h0 : k0 = k
    · subst h0
      simp [mDel, mGet, h]
    · simp [mDel, mGet, h0, ih]

theorem mDelAll_sublist {α β : Type} [DecidableEq α] (m : List (α × β)) (ks : List α) :
    List.Sublist (mDelAll m ks) m := by
  induction ks generalizing m with
  | nil => simp [mDelAll]
  | cons k0 ks ih =>
    exact List.Sublist.trans (ih (mDel m k0)) (mDel_sublist m k0)

theorem mem_mDelAll {α β : Type} [DecidableEq α] {m : List (α × β)} {ks : List α}
    {k : α} {v : β} (h : (k, v) ∈ mDelAll m ks) : (k, v) ∈ m :=
  (mDelAll_sublist m ks).subset h

theorem mKeys_nodup_mDelAll {α β : Type} [DecidableEq α] {m : List (α × β)} (ks : List α)
    (hnd : (mKeys m).Nodup) : (mKeys (mDelAll m ks)).Nodup :=
  List.Nodup.sublist ((mDelAll_sublist m ks).map Prod.fst) hnd

theorem mGet_mDelAll_none {α β : Type} [DecidableEq α] {m : List (α × β)} (ks : List α)
    {k : α} (h : mGet m k = none) : mGet (mDelAll m ks) k = none := by
  refine mGet_eq_none_iff.mpr ?_
  intro hmem
  exact mGet_eq_none_iff.mp h (((mDelAll_sublist m ks).map Prod.fst).subset hmem)

theorem mGet_mDelAll_of_mem {α β : Type} [DecidableEq α] {m : List (α × β)} {ks : List α}
    {k : α} (hnd : (mKeys m).Nodup) (h : k ∈ ks) : mGet (mDelAll m ks) k = none := by
  induction ks generalizing m with
  | nil => simp at h
  | cons k0 ks ih =>
    rcases List.mem_cons.mp h with h1 | h2
    · subst h1
      exact mGet_mDelAll_none ks (mGet_mDel_self k hnd)
    · exact ih (mKeys_nodup_mDel k0 hnd) h2

theorem mGet_mDelAll_of_not_mem {α β : Type} [DecidableEq α] {m : List (α × β)}
    {ks : List α} {k : α} (h : k ∉ ks) : mGet (mDelAll m ks) k = mGet m k := by
  induction ks generalizing m with
  | nil => simp [mDelAll]
  | cons k0 ks ih =>
    have h0 : k0 ≠ k := fun he => h (by simp [he])
    have h2 : k ∉ ks := fun hm => h (List.mem_cons_of_mem _ hm)
    calc mGet (mDelAll (mDel m k0) ks) k = mGet (mDel m k0) k := ih h2
    _ = mGet m k := mGet_mDel_ne m h0

/-! ## Registry invariant -/

/-- Structural invariant of the `MultiplayerService` registries: unique
keys, no zero-player session, exactly one host per session, the fixed
8-player cap, socket mappings pointing at a live session containing that
socket's player, and host-code mappings pointing at the session that owns
the code. -/
structure Inv (st : MultiplayerState) : Prop where
  sessNodup : (mKeys st.sessions).Nodup
  psNodup : (mKeys st.playerSessions).Nodup
  hcNodup : (mKeys st.hostCodes).Nodup
  nonempty : ∀ sid s, (sid, s) ∈ st.sessions → s.players ≠ []
  oneHost : ∀ sid s, (sid, s) ∈ st.sessions → hostCount s.players = 1
  maxP : ∀ sid s, (sid, s) ∈ st.sessions → s.maxPlayers = 8
  psValid : ∀ sock sid, (sock, sid) ∈ st.playerSessions →
    ∃ s, mGet st.sessions sid = some s ∧ sock ∈ s.players.map (·.socketId)
  hcValid : ∀ code sid, (code, sid) ∈ st.hostCodes →
    ∃ s, mGet st.sessions sid = some s ∧ s.hostCode = code

theorem hostCount_append (a b : List SessionPlayer) :
    hostCount (a ++ b) = hostCount a + hostCount b := by
  simp [hostCount, List.filter_append]

theorem hostCount_cons (p : SessionPlayer) (l : List SessionPlayer) :
    hostCount (p :: l) = (if p.isHost then 1 else 0) + hostCount l := by
  by_cases h : p.isHost <;> simp [hostCount, List.filter_cons, h, Nat.add_comm]

theorem findRemove_spec {sock : String} {ps ps' : List SessionPlayer}
    {q : SessionPlayer} (h : findRemove sock ps = some (q, ps')) :
    q.socketId = sock ∧ ∃ l1 l2, ps = l1 ++ q :: l2 ∧ ps' = l1 ++ l2 := by
  induction ps generalizing ps' with
  | nil => simp [findRemove] at h
  | cons p rest ih =>
    by_cases hp : p.socketId = sock
    · simp [findRemove, hp] at h
      obtain ⟨h1, h2⟩ := h
      subst h1
      subst h2
      exact ⟨hp, [], rest, rfl, rfl⟩
    · cases hfr : findRemove sock rest with
      | none => simp [findRemove, hp, hfr] at h
      | some qr =>
        obtain ⟨q0, rest'⟩ := qr
        simp [findRemove, hp, hfr] at h
        obtain ⟨h1, h2⟩ := h
        subst h1
        obtain ⟨hq, l1, l2, e1, e2⟩ := ih hfr
        subst e1
        subst e2
        exact ⟨hq, p :: l1, l2, by simp, by simp [← h2]⟩

theorem inv_initial : Inv initialState := by
  constructor <;> simp [initialState, mKeys]

theorem inv_create {st : MultiplayerState} (sock name sid code : String)
    (now seed : Nat) (hinv : Inv st) (hsid : mGet st.sessions sid = none)
    (hcode : mGet st.hostCodes code = none) :
    Inv (createSession st sock name sid code now seed).2 := by
  unfold createSession
  by_cases hcap : MAX_SESSIONS ≤ st.sessions.length
  · simpa [hcap] using hinv
  · simp only [if_neg hcap]
    constructor
    · exact mKeys_nodup_mSet _ _ hinv.sessNodup
    · exact mKeys_nodup_mSet _ _ hinv.psNodup
    · exact mKeys_nodup_mSet _ _ hinv.hcNodup
    · intro sid' s' hmem
      rcases mem_mSet hmem with ⟨e1, e2⟩ | hold
      · subst e2
        simp
      · exact hinv.nonempty _ _ hold
    · intro sid' s' hmem
      rcases mem_mSet hmem with ⟨e1, e2⟩ | hold
      · subst e2
        simp [hostCount]
      · exact hinv.oneHost _ _ hold
    · intro sid' s' hmem
      rcases mem_mSet hmem with ⟨e1, e2⟩ | hold
      · subst e2
        rfl
      · exact hinv.maxP _ _ hold
    · intro sock' sid' hmem
      rcases mem_mSet hmem with ⟨e1, e2⟩ | hold
      · subst e1
        subst e2
        exact ⟨_, mGet_mSet_self _ _ _, by simp⟩
      · obtain ⟨s', hs', hmemp⟩ := hinv.psValid _ _ hold
        have hne : sid ≠ sid' := by
          intro e
          rw [← e, hsid] at hs'
          cases hs'
        exact ⟨s', by rw [mGet_mSet_ne _ _ hne]; exact hs', hmemp⟩
    · intro code' sid' hmem
      rcases mem_mSet hmem with ⟨e1, e2⟩ | hold
      · subst e1
        subst e2
        exact ⟨_, mGet_mSet_self _ _ _, rfl⟩
      · obtain ⟨s', hs', hc'⟩ := hinv.hcValid _ _ hold
        have hne : sid ≠ sid' := by
          intro e
          rw [← e, hsid] at hs'
          cases hs'
        exact ⟨s', by rw [mGet_mSet_ne _ _ hne]; exact hs', hc'⟩

theorem inv_join {st : MultiplayerState} (sock code name pid : String) (now : Nat)
    (hinv : Inv st) : Inv (joinSession st sock code name pid now).2 := by
  unfold joinSession
  cases hc : mGet st.hostCodes code with
  | none =>
    simp only [hc]
    exact hinv
  | some sessionId =>
    simp only [hc]
    cases hs : mGet st.sessions sessionId with
    | none =>
      simp only [hs]
      exact hinv
    | some session =>
      simp only [hs]
      by_cases hfull : session.maxPlayers ≤ session.players.length
      · simp only [if_pos hfull]
        exact hinv
      · simp only [if_neg hfull]
        by_cases hps : (mGet st.playerSessions sock).isSome
        · simp only [hps, if_true]
          exact hinv
        · have hps' : (mGet st.playerSessions sock).isSome = false := by
            simpa using hps
          simp only [hps', Bool.false_eq_true, if_false]
          constructor
          · exact mKeys_nodup_mSet _ _ hinv.sessNodup
          · exact mKeys_nodup_mSet _ _ hinv.psNodup
          · exact hinv.hcNodup
          · intro sid' s' hmem
            rcases mem_mSet hmem with ⟨e1, e2⟩ | hold
            · subst e2
              simp
            · exact hinv.nonempty _ _ hold
          · intro sid' s' hmem
            rcases mem_mSet hmem with ⟨e1, e2⟩ | hold
            · subst e2
              simp only [hostCount_append]
              rw [hinv.oneHost _ _ (mGet_some_mem hs)]
              simp [hostCount]
            · exact hinv.oneHost _ _ hold
          · intro sid' s' hmem
            rcases mem_mSet hmem with ⟨e1, e2⟩ | hold
            · subst e2
              show session.maxPlayers = 8
              exact hinv.maxP _ _ (mGet_some_mem hs)
            · exact hinv.maxP _ _ hold
          · intro sock' sid' hmem
            rcases mem_mSet hmem with ⟨e1, e2⟩ | hold
            · subst e1
              subst e2
              exact ⟨_, mGet_mSet_self _ _ _, by simp⟩
            · obtain ⟨s', hs', hmemp⟩ := hinv.psValid _ _ hold
              by_cases he : sessionId = sid'
              · subst he
                rw [hs] at hs'
                injection hs' with hs'
                subst hs'
                refine ⟨_, mGet_mSet_self _ _ _, ?_⟩
                simp only [List.map_append]
                exact List.mem_append_left _ hmemp
              · exact ⟨s', by rw [mGet_mSet_ne _ _ he]; exact hs', hmemp⟩
          · intro code' sid' hmem
            obtain ⟨s', hs', hc'⟩ := hinv.hcValid _ _ hmem
            by_cases he : sessionId = sid'
            · subst he
              rw [hs] at hs'
              injection hs' with hs'
              subst hs'
              exact ⟨_, mGet_mSet_self _ _ _, hc'⟩
            · exact ⟨s', by rw [mGet_mSet_ne _ _ he]; exact hs', hc'⟩

theorem mem_mDel_ne_key {α β : Type} [DecidableEq α] {m : List (α × β)} {k k' : α}
    {v' : β} (hnd : (mKeys m).Nodup) (h : (k', v') ∈ mDel m k) :
    (k', v') ∈ m ∧ k' ≠ k := by
  refine ⟨mem_mDel h, ?_⟩
  intro e
  subst e
  have hsome := mGet_of_mem_nodup (mKeys_nodup_mDel k' hnd) h
  rw [mGet_mDel_self k' hnd] at hsome
  cases hsome

theorem mSet_mSet {α β : Type} [DecidableEq α] (m : List (α × β)) (k : α) (v1 v2 : β) :
    mSet (mSet m k v1) k v2 = mSet m k v2 := by
  induction m with
  | nil => simp [mSet]
  | cons kv rest ih =>
    obtain ⟨k0, v0⟩ := kv
    by_cases h : k0 = k
    · simp [mSet, h]
    · simp [mSet, h, ih]

theorem mem_map_socket_remove {l1 l2 : List SessionPlayer} {q : SessionPlayer}
    {x : String} (h : x ∈ (l1 ++ q :: l2).map (·.socketId)) (hne : x ≠ q.socketId) :
    x ∈ (l1 ++ l2).map (·.socketId) := by
  simp only [List.map_append, List.map_cons, List.mem_append, List.mem_cons] at h ⊢
  rcases h with h | h | h
  · exact Or.inl h
  · exact absurd h hne
  · exact Or.inr h

theorem inv_delete {st : MultiplayerState} (sid : String) (hinv : Inv st) :
    Inv (deleteSession st sid).2 := by
  unfold deleteSession
  cases hs : mGet st.sessions sid with
  | none =>
    simp only [hs]
    exact hinv
  | some session =>
    simp only [hs]
    constructor
    · exact mKeys_nodup_mDel _ hinv.sessNodup
    · exact mKeys_nodup_mDelAll _ hinv.psNodup
    · exact mKeys_nodup_mDel _ hinv.hcNodup
    · intro sid' s' hmem
      exact hinv.nonempty _ _ (mem_mDel hmem)
    · intro sid' s' hmem
      exact hinv.oneHost _ _ (mem_mDel hmem)
    · intro sid' s' hmem
      exact hinv.maxP _ _ (mem_mDel hmem)
    · intro sock' sid' hmem
      have hold := mem_mDelAll hmem
      obtain ⟨s', hs', hmemp⟩ := hinv.psValid _ _ hold
      have hne : sid ≠ sid' := by
        intro e
        subst e
        rw [hs] at hs'
        injection hs' with e2
        subst e2
        have h1 : mGet (mDelAll st.playerSessions (session.players.map (·.socketId))) sock'
            = none := mGet_mDelAll_of_mem hinv.psNodup hmemp
        have h2 := mGet_of_mem_nodup (mKeys_nodup_mDelAll _ hinv.psNodup) hmem
        rw [h1] at h2
        cases h2
      exact ⟨s', by rw [mGet_mDel_ne _ hne]; exact hs', hmemp⟩
    · intro code' sid' hmem
      obtain ⟨hold, hnec⟩ := mem_mDel_ne_key hinv.hcNodup hmem
      obtain ⟨s', hs', hc'⟩ := hinv.hcValid _ _ hold
      have hne : sid ≠ sid' := by
        intro e
        subst e
        rw [hs] at hs'
        injection hs' with e2
        subst e2
        exact hnec hc'.symm
      exact ⟨s', by rw [mGet_mDel_ne _ hne]; exact hs', hc'⟩

theorem inv_leave {st : MultiplayerState} (sock : String) (now : Nat) (hinv : Inv st) :
    Inv (removePlayerFromSession st sock now).2 := by
  unfold removePlayerFromSession
  cases hps : mGet st.playerSessions sock with
  | none =>
    simp only [hps]
    exact hinv
  | some sessionId =>
    simp only [hps]
    cases hs : mGet st.sessions sessionId with
    | none =>
      simp only [hs]
      exact hinv
    | some session =>
      simp only [hs]
      cases hfr : findRemove sock session.players with
      | none =>
        simp only [hfr]
        exact hinv
      | some qp =>
        obtain ⟨q, players'⟩ := qp
        simp only [hfr]
        obtain ⟨hqs, l1, l2, hpl_eq, hpl'_eq⟩ := findRemove_spec hfr
        have hcount : hostCount session.players = 1 := hinv.oneHost _ _ (mGet_some_mem hs)
        rw [hpl_eq, hostCount_append, hostCount_cons] at hcount
        by_cases hqh : q.isHost = true
        · rw [if_pos hqh] at hcount
          have hcount' : hostCount players' = 0 := by
            rw [hpl'_eq, hostCount_append]
            omega
          simp only [hqh, if_true]
          cases hplcase : players' with
          | nil =>
            subst hplcase
            unfold deleteSession
            simp only [mGet_mSet_self]
            constructor
            · exact mKeys_nodup_mDel _ (mKeys_nodup_mSet _ _ hinv.sessNodup)
            · exact mKeys_nodup_mDelAll _ (mKeys_nodup_mDel _ hinv.psNodup)
            · exact mKeys_nodup_mDel _ hinv.hcNodup
            · intro sid' s' hmem
              obtain ⟨hmem1, hne⟩ :=
                mem_mDel_ne_key (mKeys_nodup_mSet _ _ hinv.sessNodup) hmem
              rcases mem_mSet hmem1 with ⟨e1, e2⟩ | hold
              · exact absurd e1 hne
              · exact hinv.nonempty _ _ hold
            · intro sid' s' hmem
              obtain ⟨hmem1, hne⟩ :=
                mem_mDel_ne_key (mKeys_nodup_mSet _ _ hinv.sessNodup) hmem
              rcases mem_mSet hmem1 with ⟨e1, e2⟩ | hold
              · exact absurd e1 hne
              · exact hinv.oneHost _ _ hold
            · intro sid' s' hmem
              obtain ⟨hmem1, hne⟩ :=
                mem_mDel_ne_key (mKeys_nodup_mSet _ _ hinv.sessNodup) hmem
              rcases mem_mSet hmem1 with ⟨e1, e2⟩ | hold
              · exact absurd e1 hne
              · exact hinv.maxP _ _ hold
            · intro sock' sid' hmem
              obtain ⟨hmem1, hnes⟩ := mem_mDel_ne_key hinv.psNodup hmem
              obtain ⟨s', hs', hmemp⟩ := hinv.psValid _ _ hmem1
              have hne : sessionId ≠ sid' := by
                intro e
                rw [← e] at hs'
                rw [hs] at hs'
                injection hs' with e2
                subst e2
                have : session.players = [q] := by
                  rw [hpl_eq]
                  cases l1 with
                  | nil =>
                    cases l2 with
                    | nil => rfl
                    | cons a b => simp at hpl'_eq
                  | cons a b => simp at hpl'_eq
                rw [this] at hmemp
                simp at hmemp
                exact hnes (by rw [hmemp, hqs])
              refine ⟨s', ?_, hmemp⟩
              rw [mGet_mDel_ne _ hne, mGet_mSet_ne _ _ hne]
              exact hs'
            · intro code' sid' hmem
              obtain ⟨hmem1, hnec⟩ := mem_mDel_ne_key hinv.hcNodup hmem
              obtain ⟨s', hs', hc'⟩ := hinv.hcValid _ _ hmem1
              have hne : sessionId ≠ sid' := by
                intro e
                rw [← e] at hs'
                rw [hs] at hs'
                injection hs' with e2
                subst e2
                exact hnec hc'.symm
              refine ⟨s', ?_, hc'⟩
              rw [mGet_mDel_ne _ hne, mGet_mSet_ne _ _ hne]
              exact hs'
          | cons newHost rest =>
            subst hplcase
            have hhc : hostCount (newHost :: rest) = 0 := hcount'
            rw [hostCount_cons] at hhc
            have hrest : hostCount rest = 0 := by omega
            simp only [mSet_mSet]
            constructor
            · exact mKeys_nodup_mSet _ _ hinv.sessNodup
            · exact mKeys_nodup_mDel _ hinv.psNodup
            · exact hinv.hcNodup
            · intro sid' s' hmem
              rcases mem_mSet hmem with ⟨e1, e2⟩ | hold
              · subst e2
                simp
              · exact hinv.nonempty _ _ hold
            · intro sid' s' hmem
              rcases mem_mSet hmem with ⟨e1, e2⟩ | hold
              · subst e2
                show hostCount ({ newHost with isHost := true } :: rest) = 1
                rw [hostCount_cons]
                simp [hrest]
              · exact hinv.oneHost _ _ hold
            · intro sid' s' hmem
              rcases mem_mSet hmem with ⟨e1, e2⟩ | hold
              · subst e2
                show session.maxPlayers = 8
                exact hinv.maxP _ _ (mGet_some_mem hs)
              · exact hinv.maxP _ _ hold
            · intro sock' sid' hmem
              obtain ⟨hmem1, hnes⟩ := mem_mDel_ne_key hinv.psNodup hmem
              obtain ⟨s', hs', hmemp⟩ := hinv.psValid _ _ hmem1
              by_cases he : sessionId = sid'
              · subst he
                rw [hs] at hs'
                injection hs' with e2
                subst e2
                refine ⟨_, mGet_mSet_self _ _ _, ?_⟩
                have hmem2 : sock' ∈ (l1 ++ l2).map (·.socketId) := by
                  refine mem_map_socket_remove (q := q) ?_ ?_
                  · rw [← hpl_eq]
                    exact hmemp
                  · rw [hqs]
                    exact hnes
                rw [← hpl'_eq] at hmem2
                show sock' ∈ ({ newHost with isHost := true } :: rest).map (·.socketId)
                simpa using hmem2
              · exact ⟨s', by rw [mGet_mSet_ne _ _ he]; exact hs', hmemp⟩
            · intro code' sid' hmem
              obtain ⟨s', hs', hc'⟩ := hinv.hcValid _ _ hmem
              by_cases he : sessionId = sid'
              · subst he
                rw [hs] at hs'
                injection hs' with e2
                subst e2
                exact ⟨_, mGet_mSet_self _ _ _, hc'⟩
              · exact ⟨s', by rw [mGet_mSet_ne _ _ he]; exact hs', hc'⟩
        · rw [if_neg hqh] at hcount
          have hcount' : hostCount players' = 1 := by
            rw [hpl'_eq, hostCount_append]
            omega
          have hqh' : q.isHost = false := by
            cases hb : q.isHost
            · rfl
            · exact absurd hb hqh
          simp only [hqh', Bool.false_eq_true, if_false]
          constructor
          · exact mKeys_nodup_mSet _ _ hinv.sessNodup
          · exact mKeys_nodup_mDel _ hinv.psNodup
          · exact hinv.hcNodup
          · intro sid' s' hmem
            rcases mem_mSet hmem with ⟨e1, e2⟩ | hold
            · subst e2
              show players' ≠ []
              intro he
              rw [he] at hcount'
              simp [hostCount] at hcount'
            · exact hinv.nonempty _ _ hold
          · intro sid' s' hmem
            rcases mem_mSet hmem with ⟨e1, e2⟩ | hold
            · subst e2
              exact hcount'
            · exact hinv.oneHost _ _ hold
          · intro sid' s' hmem
            rcases mem_mSet hmem with ⟨e1, e2⟩ | hold
            · subst e2
              show session.maxPlayers = 8
              exact hinv.maxP _ _ (mGet_some_mem hs)
            · exact hinv.maxP _ _ hold
          · intro sock' sid' hmem
            obtain ⟨hmem1, hnes⟩ := mem_mDel_ne_key hinv.psNodup hmem
            obtain ⟨s', hs', hmemp⟩ := hinv.psValid _ _ hmem1
            by_cases he : sessionId = sid'
            · subst he
              rw [hs] at hs'
              injection hs' with e2
              subst e2
              refine ⟨_, mGet_mSet_self _ _ _, ?_⟩
              have hmem2 : sock' ∈ (l1 ++ l2).map (·.socketId) := by
                refine mem_map_socket_remove (q := q) ?_ ?_
                · rw [← hpl_eq]
                  exact hmemp
                · rw [hqs]
                  exact hnes
              rw [← hpl'_eq] at hmem2
              exact hmem2
            · exact ⟨s', by rw [mGet_mSet_ne _ _ he]; exact hs', hmemp⟩
          · intro code' sid' hmem
            obtain ⟨s', hs', hc'⟩ := hinv.hcValid _ _ hmem
            by_cases he : sessionId = sid'
            · subst he
              rw [hs] at hs'
              injection hs' with e2
              subst e2
              exact ⟨_, mGet_mSet_self _ _ _, hc'⟩
            · exact ⟨s', by rw [mGet_mSet_ne _ _ he]; exact hs', hc'⟩

/-- Every reachable registry state satisfies the structural invariant. -/
theorem inv_reachable {st : MultiplayerState} (h : Reachable st) : Inv st := by
  induction h with
  | init => exact inv_initial
  | create sock name sid code now seed hr hsid hcode ih =>
    exact inv_create sock name sid code now seed ih hsid hcode
  | join sock code name pid now hr ih => exact inv_join sock code name pid now ih
  | leave sock now hr ih => exact inv_leave sock now ih
  | delete sid hr ih => exact inv_delete sid ih

/-! ## Harvest evaluation lemmas -/

/-- A harvest of a resource whose last unit is being taken: the call
succeeds, the resource drops to zero uses and is flagged respawning, and
exactly one respawn event is appended to the queue. -/
theorem harvest_depleting_eq {ws : WorldStates} {sid rid : String} {w : WorldState}
    {r : WorldResource} (pid : Option String) (now : ℚ)
    (hw : mGet ws sid = some w) (hr : mGet w.resources rid = some r)
    (hu : r.remainingUses = 1) (hresp : r.isRespawning = false) :
    harvestResource ws sid rid pid now =
      ({ success := true, item := some (getResourceItem r.type), message := none },
        mSet ws sid
          { w with
            resources := mSet w.resources rid
              { r with
                remainingUses := 0, lastHarvestedTime := now,
                harvestedBy := pid, isRespawning := true },
            eventQueue := w.eventQueue ++
              [{ id := "respawn_" ++ rid, type := .resource_respawn,
                 scheduledTime := now + respawnDelay r.respawnTime w.playerCount,
                 data := .respawn rid, processed := false }] }) := by
  unfold harvestResource scheduleResourceRespawn
  simp [hw, hr, hu, hresp, mGet_mSet_self, mSet_mSet]

/-- A harvest of a depleted resource is rejected with the depleted message
and changes nothing. -/
theorem harvest_depleted_eq {ws : WorldStates} {sid rid : String} {w : WorldState}
    {r : WorldResource} (pid : Option String) (now : ℚ)
    (hw : mGet ws sid = some w) (hr : mGet w.resources rid = some r)
    (hu : r.remainingUses = 0) :
    harvestResource ws sid rid pid now =
      ({ success := false, item := none, message := some "Resource is depleted" }, ws) := by
  unfold harvestResource
  simp [hw, hr, hu]

/-- Processing a due, unprocessed `resource_respawn` event restores the
resource to `maxUses`, clears the respawn flag and drains the event. -/
theorem processWorldEvents_respawn_eq {ws : WorldStates} {sid rid : String}
    {w : WorldState} {r : WorldResource} {ev : WorldEvent} (now : ℚ)
    (hw : mGet ws sid = some w) (hq : w.eventQueue = [ev])
    (hevt : ev.type = .resource_respawn) (hevd : ev.data = .respawn rid)
    (hevp : ev.processed = false) (hsched : ev.scheduledTime ≤ now)
    (hr : mGet w.resources rid = some r) :
    processWorldEvents ws sid now =
      ([{ ev with processed := true }],
        mSet ws sid
          { w with
            resources := mSet w.resources rid
              { r with
                remainingUses := r.maxUses, isRespawning := false,
                lastHarvestedTime := 0, harvestedBy := none },
            eventQueue := [] }) := by
  have hlt : ¬ now < ev.scheduledTime := not_lt.mpr hsched
  simp [processWorldEvents, processEventsPass, processWorldEvent,
    processResourceRespawn, hw, hq, hevt, hevd, hevp, hlt, hr]

/-- Claim C1: for every world state and resource with `remainingUses = 1`
and `isRespawning = false`, two harvest calls for that resource id from
different players, applied one after the other under the per-session
serial execution model, yield exactly one accepted result and one
rejected-depleted result, and the resource's `remainingUses` is 0
afterwards. -/
theorem c1_single_use_harvest_race {ws : WorldStates} {sid rid : String}
    {w : WorldState} {r : WorldResource} (p1 p2 : String) (t1 t2 : ℚ)
    (hw : mGet ws sid = some w) (hr : mGet w.resources rid = some r)
    (hu : r.remainingUses = 1) (hresp : r.isRespawning = false)
    (hplayers : p1 ≠ p2) :
    (harvestResource ws sid rid (some p1) t1).1.success = true ∧
    (harvestResource (harvestResource ws sid rid (some p1) t1).2 sid rid (some p2) t2).1
      = { success := false, item := none, message := some "Resource is depleted" } ∧
    ∃ w2 r2,
      mGet (harvestResource (harvestResource ws sid rid (some p1) t1).2 sid rid (some p2) t2).2 sid
        = some w2 ∧
      mGet w2.resources rid = some r2 ∧ r2.remainingUses = 0 := by
  rw [harvest_depleting_eq (some p1) t1 hw hr hu hresp]
  refine ⟨rfl, ?_, ?_⟩
  · rw [harvest_depleted_eq (some p2) t2 (mGet_mSet_self _ _ _) (mGet_mSet_self _ _ _) rfl]
  · rw [harvest_depleted_eq (some p2) t2 (mGet_mSet_self _ _ _) (mGet_mSet_self _ _ _) rfl]
    exact ⟨_, _, mGet_mSet_self _ _ _, mGet_mSet_self _ _ _, rfl⟩

/-- Witness for C1 on the concrete world: the 1-use healing herb is
harvested by Aria and then by Bram; the first call is accepted, the second
is rejected as depleted, and zero uses remain. -/
theorem c1_single_use_harvest_race_witness :
    (harvestResource cWs "sid1" "R2" (some "player_0") 10).1.success = true ∧
    (harvestResource (harvestResource cWs "sid1" "R2" (some "player_0") 10).2 "sid1" "R2" (some "pB") 11).1
      = { success := false, item := none, message := some "Resource is depleted" } ∧
    ∃ w2 r2,
      mGet (harvestResource (harvestResource cWs "sid1" "R2" (some "player_0") 10).2 "sid1" "R2" (some "pB") 11).2 "sid1"
        = some w2 ∧
      mGet w2.resources "R2" = some r2 ∧ r2.remainingUses = 0 :=
  @c1_single_use_harvest_race cWs "sid1" "R2" cWorldBase cRone "player_0" "pB" 10 11
    (by decide) (by decide) (by decide) (by decide) (by decide)

/-- Claim C2 (amended): a harvest that takes the last unit flags the
resource as respawning, enqueues exactly one `resource_respawn` event
whose delay is `respawnTime / (playerCount × RESOURCE_RESPAWN_MULTIPLIER)`
(no lower bound), rejects every harvest until the event is processed, and
processing the event restores `remainingUses = maxUses` and clears
`isRespawning`. -/
theorem c2_respawn_cycle {ws : WorldStates} {sid rid : String}
    {w : WorldState} {r : WorldResource} (pid : Option String) (now : ℚ)
    (hw : mGet ws sid = some w) (hq : w.eventQueue = [])
    (hr : mGet w.resources rid = some r)
    (hu : r.remainingUses = 1) (hresp : r.isRespawning = false)
    (hpc : 1 ≤ w.playerCount) :
    (harvestResource ws sid rid pid now).1.success = true ∧
    ∃ w1 r1 ev,
      mGet (harvestResource ws sid rid pid now).2 sid = some w1 ∧
      mGet w1.resources rid = some r1 ∧
      r1.isRespawning = true ∧ r1.remainingUses = 0 ∧
      w1.eventQueue = [ev] ∧
      ev.type = WorldEventType.resource_respawn ∧
      ev.data = WorldEventData.respawn rid ∧
      ev.processed = false ∧
      ev.scheduledTime = now + respawnDelay r.respawnTime w.playerCount ∧
      (∀ pid2 t2,
        (harvestResource (harvestResource ws sid rid pid now).2 sid rid pid2 t2).1
          = { success := false, item := none, message := some "Resource is depleted" }) ∧
      (∀ t2, ev.scheduledTime ≤ t2 →
        ∃ w3 r3,
          mGet (processWorldEvents (harvestResource ws sid rid pid now).2 sid t2).2 sid
            = some w3 ∧
          mGet w3.resources rid = some r3 ∧
          r3.remainingUses = r.maxUses ∧ r3.isRespawning = false) := by
  rw [harvest_depleting_eq pid now hw hr hu hresp]
  refine ⟨rfl, _, _, _, mGet_mSet_self _ _ _, mGet_mSet_self _ _ _, rfl, rfl,
    by rw [show ({ w with
        resources := mSet w.resources rid
          { r with
            remainingUses := 0, lastHarvestedTime := now,
            harvestedBy := pid, isRespawning := true },
        eventQueue := w.eventQueue ++
          [{ id := "respawn_" ++ rid, type := .resource_respawn,
             scheduledTime := now + respawnDelay r.respawnTime w.playerCount,
             data := .respawn rid, processed := false }] } : WorldState).eventQueue
      = w.eventQueue ++ _ from rfl, hq, List.nil_append],
    rfl, rfl, rfl, rfl, ?_, ?_⟩
  · intro pid2 t2
    rw [harvest_depleted_eq pid2 t2 (mGet_mSet_self _ _ _) (mGet_mSet_self _ _ _) rfl]
  · intro t2 hle
    rw [processWorldEvents_respawn_eq t2 (mGet_mSet_self _ _ _)
      (by rw [show ({ w with
          resources := mSet w.resources rid
            { r with
              remainingUses := 0, lastHarvestedTime := now,
              harvestedBy := pid, isRespawning := true },
          eventQueue := w.eventQueue ++
            [{ id := "respawn_" ++ rid, type := .resource_respawn,
               scheduledTime := now + respawnDelay r.respawnTime w.playerCount,
               data := .respawn rid, processed := false }] } : WorldState).eventQueue
        = w.eventQueue ++ _ from rfl, hq, List.nil_append])
      rfl rfl rfl hle (mGet_mSet_self _ _ _)]
    exact ⟨_, _, mGet_mSet_self _ _ _, mGet_mSet_self _ _ _, rfl, rfl⟩

/-- Witness for C2 on the concrete world: depleting the healing herb at
time 10 in a 2-player world schedules its respawn and the cycle completes
once the event is due. -/
theorem c2_respawn_cycle_witness :
    (harvestResource cWs "sid1" "R2" (some "pB") 10).1.success = true ∧
    ∃ w1 r1 ev,
      mGet (harvestResource cWs "sid1" "R2" (some "pB") 10).2 "sid1" = some w1 ∧
      mGet w1.resources "R2" = some r1 ∧
      r1.isRespawning = true ∧ r1.remainingUses = 0 ∧
      w1.eventQueue = [ev] ∧
      ev.type = WorldEventType.resource_respawn ∧
      ev.data = WorldEventData.respawn "R2" ∧
      ev.processed = false ∧
      ev.scheduledTime = 10 + respawnDelay cRone.respawnTime cWorldBase.playerCount ∧
      (∀ pid2 t2,
        (harvestResource (harvestResource cWs "sid1" "R2" (some "pB") 10).2 "sid1" "R2" pid2 t2).1
          = { success := false, item := none, message := some "Resource is depleted" }) ∧
      (∀ t2, ev.scheduledTime ≤ t2 →
        ∃ w3 r3,
          mGet (processWorldEvents (harvestResource cWs "sid1" "R2" (some "pB") 10).2 "sid1" t2).2 "sid1"
            = some w3 ∧
          mGet w3.resources "R2" = some r3 ∧
          r3.remainingUses = cRone.maxUses ∧ r3.isRespawning = false) :=
  @c2_respawn_cycle cWs "sid1" "R2" cWorldBase cRone (some "pB") 10
    (by decide) (by decide) (by decide) (by decide) (by decide) (by decide)

/-- The respawn delay formula of `scheduleResourceRespawn` has no positive
lower bound over player counts: for the wood resource's base respawn time
there is no minimum delay `m > 0` respected by all player counts, refuting
the claimed "bounded below by a sane minimum" clause of C2. -/
theorem c2_no_minimum_delay_counterexample :
    ¬ ∃ m : ℚ, 0 < m ∧ ∀ pc : Nat, 1 ≤ pc →
      m ≤ respawnDelay (getResourceRespawnTime "wood") pc := by
  rintro ⟨m, hm, hall⟩
  obtain ⟨pc, hpc⟩ := exists_nat_gt (20000 / m)
  have h20 : (0 : ℚ) < 20000 / m := by positivity
  have hpcpos : (0 : ℚ) < pc := lt_trans h20 hpc
  have hpc1 : 1 ≤ pc := Nat.cast_pos.mp hpcpos
  have hval : respawnDelay (getResourceRespawnTime "wood") pc = 20000 / (pc : ℚ) := by
    show (30000 : ℚ) / ((pc : ℚ) * (3 / 2)) = 20000 / (pc : ℚ)
    rw [div_eq_div_iff (by positivity) (by positivity)]
    ring
  have hlt : respawnDelay (getResourceRespawnTime "wood") pc < m := by
    rw [hval, div_lt_iff₀ hpcpos]
    rw [div_lt_iff₀ hm] at hpc
    rw [mul_comm]
    exact hpc
  exact absurd (hall pc hpc1) (not_le.mpr hlt)

/-- Claim C9: whenever `updateGameTime` detects a season change and
enqueues a `seasonal_change` event, the payload's `previousSeason` equals
its `newSeason` (the world's `season` is overwritten before the payload is
built), so the payload never records the season actually being left. -/
theorem c9_season_payload_overwritten {ws : WorldStates} {sid : String}
    {w : WorldState} (delta : Nat) (now : ℚ) (eid : String)
    (hw : mGet ws sid = some w)
    (hchange : seasonOfIndex ((w.gameTime + delta) / w.dayLength / 30) ≠ w.season) :
    ∃ w', mGet (updateGameTime ws sid delta now eid) sid = some w' ∧
      w'.season = seasonOfIndex ((w.gameTime + delta) / w.dayLength / 30) ∧
      w'.eventQueue = w.eventQueue ++
        [{ id := eid, type := WorldEventType.seasonal_change, scheduledTime := now,
           data := WorldEventData.seasonal
             (seasonOfIndex ((w.gameTime + delta) / w.dayLength / 30))
             (seasonOfIndex ((w.gameTime + delta) / w.dayLength / 30)),
           processed := false }] := by
  unfold updateGameTime changeSeason
  simp only [hw]
  rw [if_pos (by simpa using hchange)]
  exact ⟨_, mGet_mSet_self _ _ _, rfl, rfl⟩

/-- Witness for C9: advancing the concrete spring world by 30 in-game days
fires a seasonal change to summer whose payload lists summer as both the
new and the previous season. -/
theorem c9_season_payload_overwritten_witness :
    ∃ w', mGet (updateGameTime cWs "sid1" 36000000 77 "season_77") "sid1" = some w' ∧
      w'.season = seasonOfIndex ((cWorldBase.gameTime + 36000000) / cWorldBase.dayLength / 30) ∧
      w'.eventQueue = cWorldBase.eventQueue ++
        [{ id := "season_77", type := WorldEventType.seasonal_change, scheduledTime := 77,
           data := WorldEventData.seasonal
             (seasonOfIndex ((cWorldBase.gameTime + 36000000) / cWorldBase.dayLength / 30))
             (seasonOfIndex ((cWorldBase.gameTime + 36000000) / cWorldBase.dayLength / 30)),
           processed := false }] :=
  c9_season_payload_overwritten 36000000 77 "season_77" (by decide) (by decide)

/-- Claim C6 as stated is false: in the spec's walkthrough (Aria hosts,
Bram joins by code, Aria depletes the 3-use wood resource R1, which enters
respawn), Bram's fourth harvest is rejected with "Resource is depleted",
not with the claimed "respawning" reason, because the depleted check runs
before the respawning check and a respawning resource has zero uses. -/
theorem c6_respawning_reason_counterexample :
    cJoinB.1.success = true ∧
    cH1.1.success = true ∧ cH2.1.success = true ∧ cH3.1.success = true ∧
    (resourceState cH3.2 "sid1" "R1").map (fun r => r.isRespawning) = some true ∧
    cH4.1.message = some "Resource is depleted" ∧
    some "Resource is depleted" ≠ some "Resource is respawning" := by
  decide

/-- Claim C6 (amended): in the walkthrough scenario the fourth harvest
attempt by Bram on the respawning resource R1 is rejected with reason
"depleted" ("Resource is depleted"), since the resource's
`remainingUses` is 0 while it respawns and the depleted check precedes
the respawning check. -/
theorem c6_fourth_harvest_rejected_depleted :
    cJoinB.1.success = true ∧
    cH1.1.success = true ∧ cH2.1.success = true ∧ cH3.1.success = true ∧
    (resourceState cH3.2 "sid1" "R1").map (fun r => r.isRespawning) = some true ∧
    (resourceState cH3.2 "sid1" "R1").map (fun r => r.remainingUses) = some 0 ∧
    cH4.1 = { success := false, item := none, message := some "Resource is depleted" } := by
  decide

/-- Claim C7 as stated is false: with the enemy `e1` already dead
(`isAlive = false`), `removeEnemy` still returns `true` and the
`enemy_defeated` handler still broadcasts a loot/experience event — and a
second identical message broadcasts a duplicate event for the same enemy
id. -/
theorem c7_duplicate_event_counterexample :
    (enemyState cWs "sid1" "e1").map (fun e => e.isAlive) = some false ∧
    (enemyState cWs "sid1" "e1").map (fun e => e.health) = some 0 ∧
    (removeEnemy cWs "sid1" "e1").1 = true ∧
    cD1.1 = some { enemyId := "e1", defeatedBy := "sockA", experience := 100,
                   loot := ["gold"], timestamp := 5 } ∧
    cD2.1 = some { enemyId := "e1", defeatedBy := "sockA", experience := 100,
                   loot := ["gold"], timestamp := 6 } := by
  decide

/-- Claim C7 (amended): calling defeat on an enemy whose `isAlive` is
already false re-assigns `isAlive = false` and `health = 0` (so health
stays 0 and the record's field values are unchanged), but it is not a
guarded no-op: `removeEnemy` returns `true` and the `enemy_defeated`
handler emits another loot/experience broadcast for that enemy id. -/
theorem c7_dead_enemy_redefeat {st : MultiplayerState} {ws : WorldStates}
    {sock eid : String} {s : GameSession} {w : WorldState} {e : WorldEnemy}
    (xp : Nat) (loot : List String) (now : ℚ)
    (hsess : getPlayerSession st sock = some s)
    (hw : mGet ws s.id = some w) (he : mGet w.enemies eid = some e)
    (halive : e.isAlive = false) (hhp : e.health = 0) :
    (removeEnemy ws s.id eid).1 = true ∧
    (∃ w', mGet (removeEnemy ws s.id eid).2 s.id = some w' ∧
      mGet w'.enemies eid = some e) ∧
    (handleEnemyDefeated st ws sock eid xp loot now).1
      = some { enemyId := eid, defeatedBy := sock, experience := xp,
               loot := loot, timestamp := now } := by
  have hee : ({ e with isAlive := false, health := 0 } : WorldEnemy) = e := by
    rw [← halive, ← hhp]
  have hrem : removeEnemy ws s.id eid
      = (true, mSet ws s.id { w with enemies := mSet w.enemies eid e }) := by
    simp only [removeEnemy, hw, he]
    rw [hee]
  refine ⟨by rw [hrem], ?_, ?_⟩
  · exact ⟨{ w with enemies := mSet w.enemies eid e },
      by rw [hrem]; exact mGet_mSet_self _ _ _, mGet_mSet_self _ _ _⟩
  · simp [handleEnemyDefeated, hsess]

/-- Witness for C7 (amended) on the concrete state: re-defeating the dead
goblin `e1` in Aria and Bram's session returns true, leaves the record
unchanged and emits another broadcast. -/
theorem c7_dead_enemy_redefeat_witness :
    (removeEnemy cWs cSessAB.id "e1").1 = true ∧
    (∃ w', mGet (removeEnemy cWs cSessAB.id "e1").2 cSessAB.id = some w' ∧
      mGet w'.enemies "e1" = some cEnemyDead) ∧
    (handleEnemyDefeated cStB cWs "sockA" "e1" 100 ["gold"] 5).1
      = some { enemyId := "e1", defeatedBy := "sockA", experience := 100,
               loot := ["gold"], timestamp := 5 } :=
  @c7_dead_enemy_redefeat cStB cWs "sockA" "e1" cSessAB cWorldBase cEnemyDead
    100 ["gold"] 5 (by decide) (by decide) (by decide) (by decide) (by decide)

/-- Claim C8 as stated is false: joinSession looks the code up by exact
string match, so the stored code "ABC123" written in lower case is
rejected as an unknown code instead of resolving to the session. -/
theorem c8_case_sensitive_counterexample :
    mGet cStA.hostCodes "ABC123" = some "sid1" ∧
    "abc123".data.map Char.toLower = "ABC123".data.map Char.toLower ∧
    (joinSession cStA "sockB" "abc123" "Bram" "pB" 1).1
      = { success := false, session := none, error := some "Invalid session code" } ∧
    (joinSession cStA "sockB" "abc123" "Bram" "pB" 1).2 = cStA := by
  decide

/-- Claim C8 (amended): join-codes are case-sensitive in `joinSession`:
the code is looked up by exact string equality, so a stored code written
in a different letter case (hence absent from the `hostCodes` map) is
rejected as an unknown code with no state mutation; case-insensitive
entry exists only because the client UI upper-cases typed codes. -/
theorem c8_case_sensitive_lookup (st : MultiplayerState)
    (sock stored c name pid : String) (now : Nat) (sid : String)
    (hstored : mGet st.hostCodes stored = some sid)
    (hcase : c.data.map Char.toLower = stored.data.map Char.toLower)
    (hne : c ≠ stored)
    (habsent : mGet st.hostCodes c = none) :
    joinSession st sock c name pid now
      = ({ success := false, session := none, error := some "Invalid session code" }, st) := by
  unfold joinSession
  simp [habsent]

/-- Witness for C8 (amended): the lower-cased variant of the stored code
"ABC123" is rejected as unknown on the concrete registry. -/
theorem c8_case_sensitive_lookup_witness :
    joinSession cStA "sockB" "abc123" "Bram" "pB" 1
      = ({ success := false, session := none, error := some "Invalid session code" }, cStA) :=
  c8_case_sensitive_lookup cStA "sockB" "ABC123" "abc123" "Bram" "pB" 1 "sid1"
    (by decide) (by decide) (by decide) (by decide)

/-! ## Reachability of the concrete registries -/

theorem reachable_cStA : Reachable cStA :=
  Reachable.create "sockA" "Aria" "sid1" "ABC123" 0 7 Reachable.init rfl rfl

theorem reachable_cStB : Reachable cStB :=
  Reachable.join "sockB" "ABC123" "Bram" "pB" 1 reachable_cStA

theorem reachable_cStFull : Reachable cStFull :=
  Reachable.join _ _ _ _ _ (Reachable.join _ _ _ _ _ (Reachable.join _ _ _ _ _
    (Reachable.join _ _ _ _ _ (Reachable.join _ _ _ _ _ (Reachable.join _ _ _ _ _
      (Reachable.join _ _ _ _ _ reachable_cStA))))))

/-- Claim C3: in every reachable registry state, every session with at
least one player has exactly one player with `isHost = true`; and when
the host leaves while players remain, exactly the first remaining player
in join order becomes the new host, with the session's host identity
fields updated to that player. -/
theorem c3_exactly_one_host (st : MultiplayerState) (hreach : Reachable st) :
    (∀ sid s, mGet st.sessions sid = some s → s.players ≠ [] →
      hostCount s.players = 1) ∧
    (∀ sock sid session q newHost rest now,
      mGet st.playerSessions sock = some sid →
      mGet st.sessions sid = some session →
      findRemove sock session.players = some (q, newHost :: rest) →
      q.isHost = true →
      ∃ s', mGet (removePlayerFromSession st sock now).2.sessions sid = some s' ∧
        s'.players = { newHost with isHost := true } :: rest ∧
        s'.hostId = newHost.socketId ∧
        s'.hostName = newHost.name ∧
        hostCount s'.players = 1) := by
  have hinv := inv_reachable hreach
  constructor
  · intro sid s hmem _
    exact hinv.oneHost _ _ (mGet_some_mem hmem)
  · intro sock sid session q newHost rest now hps hs hfr hqh
    have hcount : hostCount session.players = 1 := hinv.oneHost _ _ (mGet_some_mem hs)
    obtain ⟨hqs, l1, l2, hpl_eq, hpl'_eq⟩ := findRemove_spec hfr
    rw [hpl_eq, hostCount_append, hostCount_cons, if_pos hqh] at hcount
    have hcount0 : hostCount (newHost :: rest) = 0 := by
      rw [hpl'_eq, hostCount_append]
      omega
    rw [hostCount_cons] at hcount0
    have hrest : hostCount rest = 0 := by omega
    unfold removePlayerFromSession
    simp only [hps, hs, hfr]
    rw [if_pos hqh]
    refine ⟨_, mGet_mSet_self _ _ _, rfl, rfl, rfl, ?_⟩
    rw [hostCount_cons]
    simp [hrest]

/-- Witness for C3 on the concrete two-player session: when host Aria
leaves, Bram — the first remaining player in join order — becomes the
sole host and the host identity fields point at Bram. -/
theorem c3_exactly_one_host_witness :
    hostCount cSessAB.players = 1 ∧
    ∃ s', mGet (removePlayerFromSession cStB "sockA" 99).2.sessions "sid1" = some s' ∧
      s'.players = { cBramPlayer with isHost := true } :: [] ∧
      s'.hostId = cBramPlayer.socketId ∧
      s'.hostName = cBramPlayer.name ∧
      hostCount s'.players = 1 :=
  ⟨(c3_exactly_one_host cStB reachable_cStB).1 "sid1" cSessAB (by decide) (by decide),
    (c3_exactly_one_host cStB reachable_cStB).2 "sockA" "sid1" cSessAB cAriaPlayer
      cBramPlayer [] 99 (by decide) (by decide) (by decide) (by decide)⟩

/-- Claim C4: in every reachable registry state no session has zero
players, every socket mapping and every join-code mapping refers to a
session still present, leaving as the last player deletes the session
synchronously, and deleting a session removes every mapping to it. -/
theorem c4_registry_integrity (st : MultiplayerState) (hreach : Reachable st) :
    (∀ sid s, mGet st.sessions sid = some s → s.players ≠ []) ∧
    (∀ sock sid, mGet st.playerSessions sock = some sid →
      ∃ s, mGet st.sessions sid = some s) ∧
    (∀ code sid, mGet st.hostCodes code = some sid →
      ∃ s, mGet st.sessions sid = some s) ∧
    (∀ sock sid session q now,
      mGet st.playerSessions sock = some sid →
      mGet st.sessions sid = some session →
      findRemove sock session.players = some (q, []) →
      (removePlayerFromSession st sock now).1 = true ∧
      mGet (removePlayerFromSession st sock now).2.sessions sid = none) ∧
    (∀ sid, mGet (deleteSession st sid).2.sessions sid = none) ∧
    (∀ sid sock, mGet (deleteSession st sid).2.playerSessions sock ≠ some sid) ∧
    (∀ sid code, mGet (deleteSession st sid).2.hostCodes code ≠ some sid) := by
  have hinv := inv_reachable hreach
  refine ⟨?_, ?_, ?_, ?_, ?_, ?_, ?_⟩
  · intro sid s hmem
    exact hinv.nonempty _ _ (mGet_some_mem hmem)
  · intro sock sid hmem
    obtain ⟨s, hs, _⟩ := hinv.psValid _ _ (mGet_some_mem hmem)
    exact ⟨s, hs⟩
  · intro code sid hmem
    obtain ⟨s, hs, _⟩ := hinv.hcValid _ _ (mGet_some_mem hmem)
    exact ⟨s, hs⟩
  · intro sock sid session q now hps hs hfr
    obtain ⟨hqs, l1, l2, hpl_eq, hpl'_eq⟩ := findRemove_spec hfr
    obtain ⟨hl1, hl2⟩ := List.append_eq_nil.mp hpl'_eq.symm
    have hsingle : session.players = [q] := by
      rw [hpl_eq, hl1, hl2]
      rfl
    have hcount : hostCount session.players = 1 := hinv.oneHost _ _ (mGet_some_mem hs)
    rw [hsingle, hostCount_cons] at hcount
    have hqh : q.isHost = true := by
      cases hb : q.isHost
      · rw [hb] at hcount
        simp [hostCount] at hcount
      · rfl
    unfold removePlayerFromSession
    simp only [hps, hs, hfr]
    rw [if_pos hqh]
    refine ⟨rfl, ?_⟩
    unfold deleteSession
    simp only [mGet_mSet_self]
    exact mGet_mDel_self _ (mKeys_nodup_mSet _ _ hinv.sessNodup)
  · intro sid
    unfold deleteSession
    cases hdel : mGet st.sessions sid with
    | none => simp only [hdel]
    | some session =>
      simp only [hdel]
      exact mGet_mDel_self _ hinv.sessNodup
  · intro sid sock
    unfold deleteSession
    cases hdel : mGet st.sessions sid with
    | none =>
      simp only [hdel]
      intro hsome
      obtain ⟨s, hs, _⟩ := hinv.psValid _ _ (mGet_some_mem hsome)
      rw [hdel] at hs
      cases hs
    | some session =>
      simp only [hdel]
      intro hsome
      obtain ⟨s, hs, hmemp⟩ := hinv.psValid _ _ (mem_mDelAll (mGet_some_mem hsome))
      rw [hdel] at hs
      injection hs with e
      subst e
      have hnone : mGet (mDelAll st.playerSessions (session.players.map (·.socketId))) sock
          = none := mGet_mDelAll_of_mem hinv.psNodup hmemp
      rw [hnone] at hsome
      cases hsome
  · intro sid code
    unfold deleteSession
    cases hdel : mGet st.sessions sid with
    | none =>
      simp only [hdel]
      intro hsome
      obtain ⟨s, hs, _⟩ := hinv.hcValid _ _ (mGet_some_mem hsome)
      rw [hdel] at hs
      cases hs
    | some session =>
      simp only [hdel]
      intro hsome
      obtain ⟨hmem0, hnec⟩ := mem_mDel_ne_key hinv.hcNodup (mGet_some_mem hsome)
      obtain ⟨s, hs, hcode⟩ := hinv.hcValid _ _ hmem0
      rw [hdel] at hs
      injection hs with e
      subst e
      exact hnec hcode.symm

/-- Witness for C4 on the concrete registries: the two-player session has
no zero-player state, deleting it leaves no mapping behind, and the last
player leaving the solo session deletes it synchronously. -/
theorem c4_registry_integrity_witness :
    (∀ sid s, mGet cStB.sessions sid = some s → s.players ≠ []) ∧
    mGet (deleteSession cStB "sid1").2.sessions "sid1" = none ∧
    (mGet (deleteSession cStB "sid1").2.playerSessions "sockB" ≠ some "sid1") ∧
    (mGet (deleteSession cStB "sid1").2.hostCodes "ABC123" ≠ some "sid1") ∧
    (removePlayerFromSession cStA "sockA" 99).1 = true ∧
    mGet (removePlayerFromSession cStA "sockA" 99).2.sessions "sid1" = none :=
  ⟨(c4_registry_integrity cStB reachable_cStB).1,
    (c4_registry_integrity cStB reachable_cStB).2.2.2.2.1 "sid1",
    (c4_registry_integrity cStB reachable_cStB).2.2.2.2.2.1 "sid1" "sockB",
    (c4_registry_integrity cStB reachable_cStB).2.2.2.2.2.2 "sid1" "ABC123",
    ((c4_registry_integrity cStA reachable_cStA).2.2.2.1 "sockA" "sid1" cSessA
      cAriaPlayer 99 (by decide) (by decide) (by decide)).1,
    ((c4_registry_integrity cStA reachable_cStA).2.2.2.1 "sockA" "sid1" cSessA
      cAriaPlayer 99 (by decide) (by decide) (by decide)).2⟩

/-- Claim C5: joinSession rejects with reasons checked in order — unknown
join-code, session at max players (8: a 9th player is never added),
connection already mapped to a session — with no state mutation on any
rejection; on success exactly one non-host player is appended and the
session's `lastActivity` is updated. -/
theorem c5_join_rejection_order (st : MultiplayerState)
    (sock code name pid : String) (now : Nat) :
    (mGet st.hostCodes code = none →
      joinSession st sock code name pid now
        = ({ success := false, session := none, error := some "Invalid session code" }, st)) ∧
    (∀ sid session, mGet st.hostCodes code = some sid →
      mGet st.sessions sid = some session →
      (session.maxPlayers ≤ session.players.length →
        joinSession st sock code name pid now
          = ({ success := false, session := none, error := some "Session is full" }, st)) ∧
      (Reachable st → session.players.length = 8 →
        joinSession st sock code name pid now
          = ({ success := false, session := none, error := some "Session is full" }, st)) ∧
      (session.players.length < session.maxPlayers →
        (mGet st.playerSessions sock).isSome = true →
        joinSession st sock code name pid now
          = ({ success := false, session := none, error := some "Player already in a session" }, st)) ∧
      (session.players.length < session.maxPlayers →
        mGet st.playerSessions sock = none →
        joinSession st sock code name pid now
          = ({ success := true,
               session := some { session with
                 players := session.players ++
                   [{ id := pid, socketId := sock, name := name, joinedAt := now,
                      lastSeen := now, position := none, level := 1, isHost := false }],
                 lastActivity := now },
               error := none },
             { st with
               sessions := mSet st.sessions sid { session with
                 players := session.players ++
                   [{ id := pid, socketId := sock, name := name, joinedAt := now,
                      lastSeen := now, position := none, level := 1, isHost := false }],
                 lastActivity := now },
               playerSessions := mSet st.playerSessions sock sid }))) := by
  constructor
  · intro hnone
    unfold joinSession
    simp only [hnone]
  · intro sid session hcode hsid
    refine ⟨?_, ?_, ?_, ?_⟩
    · intro hfull
      unfold joinSession
      simp only [hcode, hsid]
      rw [if_pos hfull]
    · intro hreach h8
      have hmax : session.maxPlayers = 8 :=
        (inv_reachable hreach).maxP _ _ (mGet_some_mem hsid)
      unfold joinSession
      simp only [hcode, hsid]
      rw [if_pos (by rw [hmax, h8])]
    · intro hlt hps
      unfold joinSession
      simp only [hcode, hsid]
      rw [if_neg (not_le.mpr hlt), if_pos hps]
    · intro hlt hpsnone
      unfold joinSession
      simp only [hcode, hsid]
      rw [if_neg (not_le.mpr hlt), if_neg (by simp [hpsnone])]

/-- Witness for C5 exercising every branch on concrete registries: an
unknown code, the 9th join into the full 8-player session, a double join
by an already-mapped socket, and Bram's successful join. -/
theorem c5_join_rejection_order_witness :
    joinSession cStA "sockB" "ZZZZZZ" "Bram" "pB" 1
      = ({ success := false, session := none, error := some "Invalid session code" }, cStA) ∧
    joinSession cStFull "s9" "ABC123" "N9" "p9" 9
      = ({ success := false, session := none, error := some "Session is full" }, cStFull) ∧
    joinSession cStB "sockB" "ABC123" "Bram2" "pB2" 7
      = ({ success := false, session := none, error := some "Player already in a session" }, cStB) ∧
    joinSession cStA "sockB" "ABC123" "Bram" "pB" 1
      = ({ success := true,
           session := some { cSessA with
             players := cSessA.players ++
               [{ id := "pB", socketId := "sockB", name := "Bram", joinedAt := 1,
                  lastSeen := 1, position := none, level := 1, isHost := false }],
             lastActivity := 1 },
           error := none },
         { cStA with
           sessions := mSet cStA.sessions "sid1" { cSessA with
             players := cSessA.players ++
               [{ id := "pB", socketId := "sockB", name := "Bram", joinedAt := 1,
                  lastSeen := 1, position := none, level := 1, isHost := false }],
             lastActivity := 1 },
           playerSessions := mSet cStA.playerSessions "sockB" "sid1" }) :=
  ⟨(c5_join_rejection_order cStA "sockB" "ZZZZZZ" "Bram" "pB" 1).1 (by decide),
    (((c5_join_rejection_order cStFull "s9" "ABC123" "N9" "p9" 9).2 "sid1" cSessFull
      (by decide) (by decide)).1 (by decide)),
    (((c5_join_rejection_order cStB "sockB" "ABC123" "Bram2" "pB2" 7).2 "sid1" cSessAB
      (by decide) (by decide)).2.2.1 (by decide) (by decide)),
    (((c5_join_rejection_order cStA "sockB" "ABC123" "Bram" "pB" 1).2 "sid1" cSessA
      (by decide) (by decide)).2.2.2 (by decide) (by decide))⟩

/-- Claim C10: `createSession` never rejects because the calling
connection already belongs to a session: while the session cap is not
reached it succeeds, re-points the connection's mapping to the new
session, and leaves the old session — including the connection's player
entry in its player list — untouched. -/
theorem c10_create_ignores_membership (st : MultiplayerState)
    (sock name sid code aid : String) (A : GameSession) (now seed : Nat)
    (hcap : st.sessions.length < MAX_SESSIONS)
    (hmap : mGet st.playerSessions sock = some aid)
    (hA : mGet st.sessions aid = some A)
    (hfresh : mGet st.sessions sid = none) :
    (∃ s, (createSession st sock name sid code now seed).1 = some s ∧ s.id = sid) ∧
    mGet (createSession st sock name sid code now seed).2.playerSessions sock = some sid ∧
    mGet (createSession st sock name sid code now seed).2.sessions aid = some A := by
  have hne : sid ≠ aid := by
    intro e
    rw [e, hA] at hfresh
    cases hfresh
  unfold createSession
  rw [if_neg (not_le.mpr hcap)]
  refine ⟨⟨_, rfl, rfl⟩, mGet_mSet_self _ _ _, ?_⟩
  rw [mGet_mSet_ne _ _ hne]
  exact hA

/-- Witness for C10: Aria, already host of "sid1", creates a second
session "sid2"; the call succeeds, her mapping now points at "sid2", and
"sid1" still lists her player entry. -/
theorem c10_create_ignores_membership_witness :
    (∃ s, (createSession cStA "sockA" "Aria" "sid2" "XYZ789" 9 8).1 = some s ∧
      s.id = "sid2") ∧
    mGet (createSession cStA "sockA" "Aria" "sid2" "XYZ789" 9 8).2.playerSessions "sockA"
      = some "sid2" ∧
    mGet (createSession cStA "sockA" "Aria" "sid2" "XYZ789" 9 8).2.sessions "sid1"
      = some cSessA :=
  c10_create_ignores_membership cStA "sockA" "Aria" "sid2" "XYZ789" "sid1" cSessA 9 8
    (by decide) (by decide) (by decide) (by decide)

end EoV
